import Mathlib

/-!
Verification development for the `ezib_async` instrument registry
(`src/ezib_async/contracts.py`) and connection controller
(`src/ezib_async/connection.py`).

The Python code is shallowly embedded: dictionaries become insertion-ordered
association lists, `async` methods become explicit state-passing functions
(the cooperative single-threaded event loop means an `await`ed call runs to
completion before the caller resumes, so sequential composition is the
faithful semantics), transport responses become explicit parameters, and
exceptions become `Option`/`Except`.
-/

set_option maxRecDepth 10000

namespace EzIB

/-! ## Python dict / string primitives -/

/-- First-match lookup in an insertion-ordered association list; this is the
semantics of `d[k]` / `k in d` for a Python dict (keys are unique there, so
first match is the match). -/
def assocFind? {κ α : Type} [BEq κ] (l : List (κ × α)) (k : κ) : Option α :=
  (l.find? (fun p => p.1 == k)).map Prod.snd

/-- `d[k] = v` on a Python dict: replace in place if the key is present,
otherwise append (insertion order is preserved). -/
def assocSet {κ α : Type} [BEq κ] : List (κ × α) → κ → α → List (κ × α)
  | [], k, v => [(k, v)]
  | (k', v') :: rest, k, v =>
      if k' == k then (k, v) :: rest else (k', v') :: assocSet rest k v

/-- `del d[k]` on a Python dict (the source guards deletion with `in`, so
deleting an absent key never happens; erasing an absent key is the identity). -/
def assocErase {κ α : Type} [BEq κ] : List (κ × α) → κ → List (κ × α)
  | [], _ => []
  | (k', v') :: rest, k =>
      if k' == k then rest else (k', v') :: assocErase rest k

/-- `k in d`. -/
def assocHas {κ α : Type} [BEq κ] (l : List (κ × α)) (k : κ) : Bool :=
  (assocFind? l k).isSome

/-- Python `str.upper()` on one character, restricted to ASCII (every string
the source builds keys from is ASCII): the 26 lowercase letters map to their
uppercase forms, everything else is unchanged. -/
def upperChar (c : Char) : Char :=
  match c with
  | 'a' => 'A' | 'b' => 'B' | 'c' => 'C' | 'd' => 'D' | 'e' => 'E' | 'f' => 'F'
  | 'g' => 'G' | 'h' => 'H' | 'i' => 'I' | 'j' => 'J' | 'k' => 'K' | 'l' => 'L'
  | 'm' => 'M' | 'n' => 'N' | 'o' => 'O' | 'p' => 'P' | 'q' => 'Q' | 'r' => 'R'
  | 's' => 'S' | 't' => 'T' | 'u' => 'U' | 'v' => 'V' | 'w' => 'W' | 'x' => 'X'
  | 'y' => 'Y' | 'z' => 'Z' | other => other

/-- `s.upper()`: Python uppercases character-wise. -/
def pyUpper (s : String) : String := ⟨s.data.map upperChar⟩

/-- Helper for `str.replace`: strip a pattern from the front of a character
list, returning the remainder on success. -/
def stripPre : List Char → List Char → Option (List Char)
  | [], s => some s
  | _ :: _, [] => none
  | p :: ps, c :: cs => if c = p then stripPre ps cs else none

theorem stripPre_length {pat s rest : List Char} (h : stripPre pat s = some rest) :
    rest.length + pat.length = s.length := by
  induction pat generalizing s with
  | nil => simp [stripPre] at h; simp [h]
  | cons p ps ih =>
    cases s with
    | nil => simp [stripPre] at h
    | cons c cs =>
      simp only [stripPre] at h
      split at h
      · have := ih h
        simp only [List.length_cons]
        omega
      · exact absurd h (by simp)

/-- `s.replace(pat, repl)` for a non-empty pattern `p :: ps`, replacing every
(left-to-right, non-overlapping) occurrence, as Python does. The fuel argument
exists only to make the recursion structural; each step consumes at least one
character, so fuel `s.length` (supplied by `pyReplace`) is always enough. -/
def replaceSub (p : Char) (ps r : List Char) : Nat → List Char → List Char
  | 0, s => s
  | _ + 1, [] => []
  | n + 1, c :: cs =>
      match stripPre (p :: ps) (c :: cs) with
      | some rest => r ++ replaceSub p ps r n rest
      | none => c :: replaceSub p ps r n cs

/-- Python `s.replace(pat, repl)` (the source only ever replaces the non-empty
patterns `"_STK"` and `" "`). -/
def pyReplace (pat repl s : String) : String :=
  match pat.data with
  | [] => s
  | p :: ps => ⟨replaceSub p ps repl.data s.data.length s.data⟩

/-- Left-pad a character list with `'0'` to the requested width
(`'{:0>5d}'.format`-style: strings already long enough are untouched). -/
def padLeftZero (w : Nat) (s : List Char) : List Char :=
  List.replicate (w - s.length) '0' ++ s

/-- Python `int(x)` on a float/rational: truncation toward zero. -/
def pyTrunc (q : ℚ) : Int :=
  if 0 ≤ q.num then ((q.num.natAbs / q.den : Nat) : Int)
  else -((q.num.natAbs / q.den : Nat) : Int)

/-- The integer nearest `1000 * q` (`format(q, '.3f')` rounding; Lean's `Int`
division by a positive denominator is floor division, so this is
`⌊1000q + 1/2⌋`. The source formats a binary double, which is never an exact
decimal tie, so the tie-breaking direction is immaterial). -/
def round3 (q : ℚ) : Int := (2 * q.num * 1000 + (q.den : Int)) / (2 * (q.den : Int))

/-- The three digits after the decimal point of `format(q, '.3f')`. -/
def frac3 (q : ℚ) : String :=
  ⟨padLeftZero 3 (toString ((round3 q).natAbs % 1000)).data⟩

/-- Python `int(s)` on a string: digits-only parse, `none` models the
`ValueError` (the source's expiry fields never carry signs or whitespace). -/
def pyToNat? (s : List Char) : Option Nat :=
  if s ≠ [] ∧ s.all Char.isDigit then
    some (s.foldl (fun a c => 10 * a + (c.toNat - 48)) 0)
  else none

/-! ## Instrument specs and the canonical key encoder
(`ContractManager.contract_to_string`, contracts.py:150-201) -/

/-- The 7/8-tuple representation of an instrument spec
(`(symbol, secType, exchange, currency, expiry, strike, right[, multiplier])`).
The strike is a rational standing for the Python float (every strike the
claims touch is an exact decimal); a missing 8th slot is `none`. -/
structure ContractTuple where
  symbol : String
  secType : String
  exchange : String
  currency : String
  expiry : String
  strike : ℚ
  right : String
  multiplier : Option String := none
deriving DecidableEq, Repr

/-- Month-code table from `contract_to_string` (futures month 1-12 to letter);
`none` models the `KeyError` for an out-of-range month. -/
def month_codes : Nat → Option Char
  | 1 => some 'F' | 2 => some 'G' | 3 => some 'H' | 4 => some 'J'
  | 5 => some 'K' | 6 => some 'M' | 7 => some 'N' | 8 => some 'Q'
  | 9 => some 'U' | 10 => some 'V' | 11 => some 'X' | 12 => some 'Z'
  | _ => none

/-- The `try:` body of `contract_to_string`: `none` models an exception
(`IndexError` on `right[0]`, `ValueError` from `int`, `KeyError` from the
month table), which the `except:` arm turns into the bare-symbol fallback. -/
def contract_to_string_core (t : ContractTuple) : Option (String × String) :=
  if t.secType = "OPT" ∨ t.secType = "FOP" then
    match t.right.data.head? with
    | none => none
    | some rc =>
        let strike : String :=
          (⟨padLeftZero 5 (toString (pyTrunc t.strike)).data⟩ : String) ++ frac3 t.strike
        some (t.symbol ++ t.expiry ++ String.singleton rc ++ strike, t.secType)
  else if t.secType = "FUT" then
    let exp := t.expiry.data.take 6
    match pyToNat? (exp.drop 4) with
    | none => none
    | some m =>
        match month_codes m with
        | none => none
        | some code => some (t.symbol ++ String.singleton code ++ (⟨exp.take 4⟩ : String), t.secType)
  else if t.secType = "CASH" then
    some (t.symbol ++ t.currency, t.secType)
  else
    some (t.symbol, t.secType)

/-- `ContractManager.contract_to_string` with the default separator `"_"`:
join the two parts, elide the `_STK` suffix, replace spaces with underscores
and uppercase. -/
def contract_to_string (t : ContractTuple) : String :=
  let s : String :=
    match contract_to_string_core t with
    | some (a, b) => pyReplace "_STK" "" (a ++ "_" ++ b)
    | none => t.symbol
  pyUpper (pyReplace " " "_" s)

/-! ## Contracts, detail records and the registry state
(`ContractManager.__init__`, contracts.py:47-59) -/

/-- `ib_async.ComboLeg` (fields the source touches, with the dataclass
defaults). -/
structure ComboLeg where
  conId : Int := 0
  ratio : Int := 0
  action : String := ""
  exchange : String := ""
  openClose : Int := 0
  shortSaleSlot : Int := 0
  designatedLocation : String := ""
deriving DecidableEq, Repr

/-- `ib_async.Contract` (the fields the source reads or writes, with the
dataclass defaults used by `Contract()`). -/
structure Contract where
  conId : Int := 0
  symbol : String := ""
  secType : String := ""
  lastTradeDateOrContractMonth : String := ""
  strike : ℚ := 0
  right : String := ""
  multiplier : String := ""
  exchange : String := ""
  primaryExchange : String := ""
  currency : String := ""
  localSymbol : String := ""
  tradingClass : String := ""
  includeExpired : Bool := false
  comboLegs : List ComboLeg := []
deriving DecidableEq, Repr

/-- The `summary` slot of a detail record: either the literal default dict of
`contract_details` (whose `right`/`primaryExch` are `None`) or `vars(contract)`
for a concrete contract. -/
structure Summary where
  conId : Int
  currency : String
  exchange : String
  lastTradeDateOrContractMonth : String
  includeExpired : Bool
  localSymbol : String
  multiplier : String
  primaryExch : Option String
  right : Option String
  secType : String
  strike : ℚ
  symbol : String
  tradingClass : String
deriving DecidableEq, Repr

/-- `vars(contract)` restricted to the summary fields the source reads. -/
def varsSummary (c : Contract) : Summary :=
  { conId := c.conId, currency := c.currency, exchange := c.exchange,
    lastTradeDateOrContractMonth := c.lastTradeDateOrContractMonth,
    includeExpired := c.includeExpired, localSymbol := c.localSymbol,
    multiplier := c.multiplier, primaryExch := some c.primaryExchange,
    right := some c.right, secType := c.secType, strike := c.strike,
    symbol := c.symbol, tradingClass := c.tradingClass }

/-- One `ib_async.ContractDetails` object as returned by the transport's
`reqContractDetailsAsync` (the fields `_process_contract_details` reads). -/
structure ContractDetails where
  contract : Contract
  contractMonth : String := ""
  industry : String := ""
  category : String := ""
  subcategory : String := ""
  timeZoneId : String := ""
  tradingHours : String := ""
  liquidHours : String := ""
  evRule : String := ""
  evMultiplier : ℚ := 0
  minTick : ℚ := 0
  orderTypes : String := ""
  validExchanges : String := ""
  priceMagnifier : Int := 0
  underConId : Int := 0
  longName : String := ""
  marketName : String := ""
deriving DecidableEq, Repr

/-- The detail dict stored in `_contract_details` / returned by
`contract_details`. Optional fields are those whose placeholder default is
`None`. -/
structure DetailRecord where
  tickerId : Int
  category : Option String
  contractMonth : String
  downloaded : Bool
  evMultiplier : ℚ
  evRule : Option String
  industry : Option String
  liquidHours : String
  longName : String
  marketName : String
  minTick : ℚ
  orderTypes : String
  priceMagnifier : Int
  subcategory : Option String
  timeZoneId : String
  tradingHours : String
  underConId : Int
  validExchanges : String
  contracts : List Contract
  conId : Int
  summary : Summary
deriving DecidableEq, Repr

/-- The literal default record of `contract_details` (contracts.py:267-303),
returned when no details are available. -/
def default_contract_details : DetailRecord :=
  { tickerId := 0, category := none, contractMonth := "", downloaded := false,
    evMultiplier := 0, evRule := none, industry := none, liquidHours := "",
    longName := "", marketName := "", minTick := 1/100, orderTypes := "",
    priceMagnifier := 0, subcategory := none, timeZoneId := "",
    tradingHours := "", underConId := 0, validExchanges := "SMART",
    contracts := [{}], conId := 0,
    summary := { conId := 0, currency := "USD", exchange := "SMART",
                 lastTradeDateOrContractMonth := "", includeExpired := false,
                 localSymbol := "", multiplier := "", primaryExch := none,
                 right := none, secType := "", strike := 0, symbol := "",
                 tradingClass := "" } }

/-- The mutable state of a `ContractManager` (`__init__`): the contract pool,
the symbol-to-ticker-id registry (seeded with the id-0 sentinel), the two
detail caches and the local-symbol-to-expiry map. `lookupCount` instruments
the transport: it counts the `reqContractDetailsAsync` calls issued. -/
structure Registry where
  contracts : List (Int × Contract) := []
  tickerIds : List (Int × String) := [(0, "SYMBOL")]
  contractDetails : List (Int × DetailRecord) := []
  tempContractDetails : List (Int × DetailRecord) := []
  localSymbolExpiry : List (String × String) := []
  lookupCount : Nat := 0
deriving DecidableEq, Repr

/-- A freshly constructed `ContractManager`. -/
def initRegistry : Registry := {}

/-! ## Registry operations (contracts.py:87-473) -/

/-- `ContractManager.contract_to_tuple` (a 7-tuple: no multiplier slot). -/
def contract_to_tuple (c : Contract) : ContractTuple :=
  ⟨c.symbol, c.secType, c.exchange, c.currency,
   c.lastTradeDateOrContractMonth, c.strike, c.right, none⟩

/-- `contract_to_string` applied to a `Contract` argument (the non-tuple
branch converts to a tuple first; the `localSymbol` it reads is never used). -/
def contract_to_stringC (c : Contract) : String :=
  contract_to_string (contract_to_tuple c)

/-- `ContractManager.ticker_id` on a symbol string: return the id of the
first entry holding this symbol, else allocate `len(_ticker_ids)` and append. -/
def ticker_id (r : Registry) (symbol : String) : Int × Registry :=
  match r.tickerIds.find? (fun p => p.2 == symbol) with
  | some p => (p.1, r)
  | none =>
      let tid : Int := (r.tickerIds.length : Int)
      (tid, { r with tickerIds := r.tickerIds ++ [(tid, symbol)] })

/-- `ticker_id` on a `Contract` argument (stringified first). -/
def ticker_idC (r : Registry) (c : Contract) : Int × Registry :=
  ticker_id r (contract_to_stringC c)

/-- `ContractManager.ticker_symbol`: dict lookup with the `KeyError` handler
returning `""`. -/
def ticker_symbol (r : Registry) (tid : Int) : String :=
  (assocFind? r.tickerIds tid).getD ""

/-- `ContractManager.contract_details` on an integer ticker id: the cached
record, else the temp cache, else the literal default. -/
def contract_details (r : Registry) (tid : Int) : DetailRecord :=
  match assocFind? r.contractDetails tid with
  | some d => d
  | none =>
      match assocFind? r.tempContractDetails tid with
      | some d => d
      | none => default_contract_details

/-- `contract_details` on a `Contract` argument (resolves the ticker id first,
which can allocate). -/
def contract_detailsC (r : Registry) (c : Contract) : DetailRecord × Registry :=
  let (tid, r₁) := ticker_idC r c
  (contract_details r₁ tid, r₁)

/-- `ContractManager.get_con_id` on a `Contract` argument. -/
def get_con_id (r : Registry) (c : Contract) : Int × Registry :=
  let (d, r₁) := contract_detailsC r c
  (d.conId, r₁)

/-- Stable insertion into an ascending list (for Python `sorted`). -/
def insertAsc (x : Int) : List Int → List Int
  | [] => [x]
  | y :: ys => if x ≤ y then x :: y :: ys else y :: insertAsc x ys

/-- Python `sorted` on a list of ints (the sorted permutation of an int list
is unique, so any correct sort matches). -/
def sortAsc (l : List Int) : List Int := l.foldr insertAsc []

/-- Python `min(l, key=lambda x: abs(x - today))` on a non-empty list: the
first element with minimal key (later ties do not replace). -/
def closestExpiry (today : Int) (x : Int) (xs : List Int) : Int :=
  xs.foldl (fun best y => if |y - today| < |best - today| then y else best) x

/-- Python `l.index(x)`: index of the first occurrence (only called on a
member). -/
def idxOfInt (x : Int) : List Int → Nat
  | [] => 0
  | y :: ys => if y = x then 0 else idxOfInt x ys + 1

/-- `ContractManager.get_expirations` on a `Contract` argument, with
`datetime.now` abstracted into `today` (YYYYMMDD as an integer). The first
component is `none` when `int(...)` raises `ValueError` on a non-numeric
expiry (the exception propagates to the caller); the registry is returned in
either case because the ticker-id resolution at entry may already have
allocated. -/
def get_expirations (today : Int) (r : Registry) (c : Contract) (expired : Int) :
    Option (List Int) × Registry :=
  let (tid, r₁) := ticker_idC r c
  let details := contract_details r₁ tid
  let contracts := details.contracts
  match contracts.head? with
  | none => (some [], r₁)
  | some c0 =>
    if ¬ (c0.secType = "FUT" ∨ c0.secType = "FOP" ∨ c0.secType = "OPT") then
      (some [], r₁)
    else
      let months := contracts.filter (fun k => k.lastTradeDateOrContractMonth ≠ "")
      match months.mapM (fun k => (pyToNat? k.lastTradeDateOrContractMonth.data).map Int.ofNat) with
      | none => (none, r₁)
      | some exps =>
          let exps :=
            match exps with
            | [] => exps
            | e :: es =>
                let closest := closestExpiry today e es
                let idx : Int := (idxOfInt closest (e :: es) : Int) - expired
                if 0 ≤ idx then (e :: es).drop idx.toNat else e :: es
          (some (sortAsc exps), r₁)

/-- `ContractManager.is_multi_contract` (the early returns precede the
ticker-id resolution, which may allocate; Python truthiness makes a
zero strike "missing"). -/
def is_multi_contract (r : Registry) (c : Contract) : Bool × Registry :=
  if c.secType = "FUT" ∧ c.lastTradeDateOrContractMonth = "" then (true, r)
  else if (c.secType = "OPT" ∨ c.secType = "FOP") ∧
          (c.lastTradeDateOrContractMonth = "" ∨ c.strike = 0 ∨ c.right = "") then
    (true, r)
  else
    let (tid, r₁) := ticker_idC r c
    match assocFind? r₁.contractDetails tid with
    | some d => (decide (d.contracts.length > 1), r₁)
    | none => (false, r₁)

/-- The storage tail of `_process_contract_details` (contracts.py:424-444),
reached once the summary has been selected: build the detail dict, store it at
the ticker id, record the local-symbol expiries, and register each leaf
contract (allocating its ticker id, pooling it, and — for a leaf with a
different id — storing a copied record with the leaf as its summary). -/
def process_details_finish (tid : Int) (d0 : ContractDetails)
    (detailsList : List ContractDetails) (month : String) (summary : Summary)
    (r' : Registry) : Registry :=
  let contracts := detailsList.map (·.contract)
  let dd : DetailRecord :=
    { tickerId := tid, downloaded := true, contracts := contracts,
      conId := d0.contract.conId, contractMonth := month,
      industry := some d0.industry, category := some d0.category,
      subcategory := some d0.subcategory, timeZoneId := d0.timeZoneId,
      tradingHours := d0.tradingHours, liquidHours := d0.liquidHours,
      evRule := some d0.evRule, evMultiplier := d0.evMultiplier,
      minTick := d0.minTick, orderTypes := d0.orderTypes,
      validExchanges := d0.validExchanges, priceMagnifier := d0.priceMagnifier,
      underConId := d0.underConId, longName := d0.longName,
      marketName := d0.marketName, summary := summary }
  let r₂ := { r' with contractDetails := assocSet r'.contractDetails tid dd }
  let r₃ := detailsList.foldl (fun acc d =>
      if d.contract.localSymbol ≠ "" ∧ ¬ assocHas acc.localSymbolExpiry d.contract.localSymbol then
        { acc with localSymbolExpiry :=
            assocSet acc.localSymbolExpiry d.contract.localSymbol d.contractMonth }
      else acc) r₂
  contracts.foldl (fun acc c =>
      let cstr := contract_to_stringC c
      let (ctid, acc₁) := ticker_id acc cstr
      let acc₂ := { acc₁ with contracts := assocSet acc₁.contracts ctid c }
      if ctid ≠ tid then
        { acc₂ with contractDetails := (assocSet acc₂.contractDetails ctid
              { dd with summary := varsSummary c, contracts := [c] }) }
      else acc₂) r₃

/-- `ContractManager._process_contract_details` (contracts.py:376-444), with
`datetime.now` abstracted into `today`. Exceptions inside (the `KeyError` on
`self._contracts[ticker_id]`, a `ValueError` from `int`, the `IndexError` on
the negative index) abort processing before any cache write — they bubble up
to `request_contract_details`'s `except` arm — so those paths return the
registry as mutated so far (only the entry ticker-id resolution inside
`get_expirations` can have mutated it by then). -/
def process_contract_details (today : Int) (tid : Int)
    (detailsList : List ContractDetails) (r : Registry) : Registry :=
  match detailsList with
  | [] => r
  | d0 :: rest =>
    let contracts := detailsList.map (·.contract)
    let finish : String → Summary → Registry → Registry :=
      process_details_finish tid d0 detailsList
    if rest.length + 1 > 1 then
      match assocFind? r.contracts tid with
      | none => r
      | some stored =>
        match get_expirations today r stored 0 with
        | (none, r₁) => r₁
        | (some exps, r₁) =>
          match exps with
          | [] => finish "" (varsSummary d0.contract) r₁
          | _ :: _ =>
            -- `contracts[-len(expirations)]`; the in-range guard models the
            -- `IndexError` of an out-of-range negative index, and within it
            -- `getD` hits the valid index `len - len(exps)`.
            if exps.length ≤ contracts.length then
              finish "" (varsSummary (contracts.getD (contracts.length - exps.length) {})) r₁
            else r₁
    else finish d0.contractMonth (varsSummary d0.contract) r

/-- `ContractManager.request_contract_details`: resolve the contract's ticker
id, issue one transport lookup (`resp` is its outcome: `none` a transport
error, `some []` an empty result, otherwise the detail list), and process.
Transport errors and processing exceptions land in the `except` arm (logged,
no further effect). -/
def request_contract_details (resp : Option (List ContractDetails)) (today : Int)
    (c : Contract) (r : Registry) : Registry :=
  let (tid, r₁) := ticker_idC r c
  let r₂ := { r₁ with lookupCount := r₁.lookupCount + 1 }
  match resp with
  | none => r₂
  | some [] => r₂
  | some ds => process_contract_details today tid ds r₂

/-- The `Contract` object built by `create_contract` (contracts.py:319-337):
the `or` defaults make an empty exchange `"SMART"` and an empty currency
`"USD"` (falsy expiry/strike/right already coincide with their defaults), the
multiplier is set only when the tuple has an 8th slot, expired contracts are
included for the derivative types, and combo legs are attached when given. -/
def build_contract (t : ContractTuple) (combo_legs : Option (List ComboLeg)) : Contract :=
  { symbol := t.symbol, secType := t.secType,
    exchange := if t.exchange = "" then "SMART" else t.exchange,
    currency := if t.currency = "" then "USD" else t.currency,
    lastTradeDateOrContractMonth := t.expiry,
    strike := t.strike,
    right := t.right,
    multiplier := t.multiplier.getD "",
    includeExpired := t.secType == "FUT" || t.secType == "OPT" || t.secType == "FOP",
    comboLegs := combo_legs.getD [] }

/-- `ContractManager.create_contract` (contracts.py:305-353): canonicalize the
tuple, resolve/allocate its ticker id, build the `Contract` with the `or`
defaults, pool it, and (combo specs aside) request details; the subsequent
`is_multi_contract` call picks the sleep duration and can itself allocate.
Returns the contract together with the resolved ticker id (computed at line
317 of the source). -/
def create_contract (resp : Option (List ContractDetails)) (today : Int)
    (t : ContractTuple) (combo_legs : Option (List ComboLeg)) (r : Registry) :
    Contract × Int × Registry :=
  let cstr := contract_to_string t
  let (tid, r₁) := ticker_id r cstr
  let c := build_contract t combo_legs
  let r₂ := { r₁ with contracts := assocSet r₁.contracts tid c }
  match combo_legs with
  | some _ => (c, tid, r₂)
  | none =>
      let r₃ := request_contract_details resp today c r₂
      let (_, r₄) := is_multi_contract r₃ c
      (c, tid, r₄)

/-! ## Futures and continuous futures (contracts.py:578-659) -/

/-- `ContractManager.create_futures_contract` on a plain symbol with a single
(possibly empty) expiry string — the shape of the call made by the
continuous-futures path. A falsy expiry yields the no-expiry 8-tuple,
otherwise the single dated 8-tuple. (An `@`-prefixed symbol would re-enter
the continuous path; the callers modelled here never pass one.) -/
def create_futures_contract (resp : Option (List ContractDetails)) (today : Int)
    (symbol currency expiry exchange multiplier : String) (r : Registry) :
    Contract × Int × Registry :=
  if expiry = "" then
    create_contract resp today ⟨symbol, "FUT", exchange, currency, "", 0, "", some multiplier⟩ none r
  else
    create_contract resp today ⟨symbol, "FUT", exchange, currency, expiry, 0, "", some multiplier⟩ none r

/-- The bounded `for _ in range(25)` poll of `create_continuous_futures_contract`:
read the placeholder's details, break once both `tickerId` and `conId` are
non-zero, and keep the last read on exhaustion. The fuel counts the remaining
iterations after the current read, so fuel 24 gives the source's 25 reads. -/
def contfut_poll (c : Contract) : Nat → Registry → DetailRecord × Registry
  | 0, r => contract_detailsC r c
  | n + 1, r =>
      let (d, r₁) := contract_detailsC r c
      if d.tickerId ≠ 0 ∧ d.conId ≠ 0 then (d, r₁) else contfut_poll c n r₁

/-- One attempt of the continuous-futures resolution: create the `CONTFUT`
placeholder (its tuple's string strike slot `""` is falsy, hence strike 0)
and poll its details. -/
def contfut_attempt (resp : Option (List ContractDetails)) (today : Int)
    (symbol exchange : String) (r : Registry) : DetailRecord × Registry :=
  let (c, _, r₁) := create_contract resp today ⟨symbol, "CONTFUT", exchange, "", "", 0, "", none⟩ none r
  contfut_poll c 24 r₁

/-- The result of `create_continuous_futures_contract`: a tuple when
`output == "tuple"`, otherwise the re-resolved dated futures contract. -/
inductive FutResult where
  | tuple (t : ContractTuple)
  | contract (c : Contract) (tid : Int)
deriving DecidableEq, Repr

/-- The success tail of `create_continuous_futures_contract` (lines 643-659):
read the discovered month/currency/multiplier off the polled record, evict the
continuous placeholder from the contract pool and the detail cache (the
deletions are guarded by `in`, so erasing is exact), then either return the
dated tuple or re-resolve as a dated future. -/
def contfut_finish (respFut : Option (List ContractDetails)) (today : Int)
    (symbol exchange output : String) (d : DetailRecord) (r : Registry) :
    FutResult × Registry :=
  let tid := d.tickerId
  let expiry := d.contractMonth
  let currency := d.summary.currency
  let multiplier := d.summary.multiplier
  let r₁ := { r with contracts := assocErase r.contracts tid,
                     contractDetails := assocErase r.contractDetails tid }
  if output = "tuple" then
    (.tuple ⟨symbol, "FUT", exchange, currency, expiry, 0, "", some multiplier⟩, r₁)
  else
    let out := create_futures_contract respFut today symbol currency expiry exchange multiplier r₁
    (.contract out.1 out.2.1, out.2.2)

/-- `ContractManager.create_continuous_futures_contract` (contracts.py:613-659)
with the `is_retry` recursion unfolded: a first attempt whose polled `conId`
is 0 triggers exactly one automatic retry; a second zero raises the
`ValueError` naming the symbol/exchange combination. `resp1`/`resp2` are the
transport's detail responses for the two attempts, `respFut` the response for
the dated re-resolution. -/
def create_continuous_futures_contract (resp1 resp2 respFut : Option (List ContractDetails))
    (today : Int) (symbol exchange output : String) (r : Registry) :
    Except String FutResult × Registry :=
  let att1 := contfut_attempt resp1 today symbol exchange r
  if att1.1.conId = 0 then
    let att2 := contfut_attempt resp2 today symbol exchange att1.2
    if att2.1.conId = 0 then
      (.error ("Can't find a valid Contract using this combination (" ++ symbol ++ "/" ++ exchange ++ ")"),
       att2.2)
    else
      let fin := contfut_finish respFut today symbol exchange output att2.1 att2.2
      (.ok fin.1, fin.2)
  else
    let fin := contfut_finish respFut today symbol exchange output att1.1 att1.2
    (.ok fin.1, fin.2)

/-! ## Combo legs (contracts.py:727-759) -/

/-- The `while con_id == 0 and loops < 100` poll of `create_combo_leg`, with
fuel `100 - loops` making the recursion structural: each iteration reads
`get_con_id` (a cache read that may allocate a ticker id) and sleeps 0.05 s.
Returns the last read `con_id` and the number of iterations (= sleeps). -/
def combo_leg_go (c : Contract) : Nat → Int → Nat → Registry → Int × Nat × Registry
  | 0, conId, loops, r => (conId, loops, r)
  | fuel + 1, conId, loops, r =>
      if conId = 0 then
        let (ci, r₁) := get_con_id r c
        combo_leg_go c fuel ci (loops + 1) r₁
      else (conId, loops, r)

/-- `ContractManager.create_combo_leg`: poll the cache for the leg's contract
id (at most 100 polls), then build the leg from whatever the last poll gave —
a still-unresolved id leaves `conId = 0` on the returned leg. The middle
component counts the polls performed. -/
def create_combo_leg (c : Contract) (action : String) (legRatio : Int)
    (exchange : Option String) (r : Registry) : ComboLeg × Nat × Registry :=
  let (conId, loops, r₁) := combo_leg_go c 100 0 0 r
  ({ conId := conId, ratio := |legRatio|, action := action,
     exchange := exchange.getD c.exchange,
     openClose := 0, shortSaleSlot := 0, designatedLocation := "" }, loops, r₁)

/-! ## Connection controller (`ConnectionManager`, connection.py) -/

/-- The observable state of a `ConnectionManager`: the transport's liveness,
every reconnect task ever spawned (`true` = still running), the
`_reconnect_task` handle (index of the most recently spawned task), the
liveness-poll task, and the attempt counter/bound. -/
structure ConnState where
  connected : Bool := false
  tasks : List Bool := []
  reconnectTask : Option Nat := none
  monitorRunning : Bool := false
  reconnectAttempts : Nat := 0
  maxAttempts : Nat := 5
deriving DecidableEq, Repr

/-- A freshly constructed `ConnectionManager`. -/
def initConn : ConnState := {}

/-- `self._reconnect_task is not None and not self._reconnect_task.done()`. -/
def handleRunning (s : ConnState) : Bool :=
  match s.reconnectTask with
  | none => false
  | some i => s.tasks.getD i false

/-- Number of reconnect tasks currently running. -/
def runningCount (s : ConnState) : Nat := s.tasks.count true

/-- `ConnectionManager._handle_disconnection` (connection.py:176-190): spawn a
new reconnect task only when the handle is absent or its task is done. -/
def handle_disconnection (s : ConnState) : ConnState :=
  if handleRunning s then s
  else { s with tasks := s.tasks ++ [true], reconnectTask := some s.tasks.length }

/-- One wake-up of `_monitor_connection`'s periodic check (connection.py:161-168):
if the poll task is alive, the session is down and no reconnect task is
running, invoke the disconnection handler. -/
def monitor_tick (s : ConnState) : ConnState :=
  if s.monitorRunning ∧ ¬ s.connected ∧ ¬ handleRunning s then handle_disconnection s
  else s

/-- A successful `connect(...)` with the default `auto_reconnect=True`
(connection.py:73-124): reset the attempt counter, transport success, and arm
monitoring when no reconnect task handle exists. -/
def connect_ok (s : ConnState) : ConnState :=
  let s₁ := { s with connected := true, reconnectAttempts := 0 }
  if s₁.reconnectTask = none then { s₁ with monitorRunning := true } else s₁

/-- The transport's `disconnectedEvent` firing: the session drops and the
registered handler runs. -/
def disconnect_event (s : ConnState) : ConnState :=
  handle_disconnection { s with connected := false }

/-- The running reconnect task finishing (exhaustion or success): its
`finally:` resets the attempt counter, the task becomes done, and on success
the session is live again. -/
def task_completes (success : Bool) (s : ConnState) : ConnState :=
  match s.reconnectTask with
  | none => s
  | some i =>
      { s with tasks := s.tasks.set i false, reconnectAttempts := 0,
               connected := s.connected || success }

/-- `disconnect()` (explicit, user-initiated, connection.py:245-299): cancel
the reconnect task (its `finally:` resets the counter) and the monitor, drop
both handles, close the session. -/
def disconnect_user (s : ConnState) : ConnState :=
  { s with tasks := (match s.reconnectTask with
                     | none => s.tasks
                     | some i => s.tasks.set i false),
           reconnectTask := none, reconnectAttempts := 0,
           monitorRunning := false, connected := false }

/-- The controller's event alphabet. -/
inductive ConnOp where
  | connectOk
  | disconnectEvent
  | monitorTick
  | taskCompletes (success : Bool)
  | userDisconnect
deriving DecidableEq, Repr

/-- One controller event. -/
def connStep (s : ConnState) : ConnOp → ConnState
  | .connectOk => connect_ok s
  | .disconnectEvent => disconnect_event s
  | .monitorTick => monitor_tick s
  | .taskCompletes ok => task_completes ok s
  | .userDisconnect => disconnect_user s

/-- Run a sequence of controller events from a state. -/
def connRun (s : ConnState) : List ConnOp → ConnState
  | [] => s
  | op :: ops => connRun (connStep s op) ops

/-- The body of `ConnectionManager._reconnect` (connection.py:192-243) as a
fuel recursion (`fuel = maxAttempts - attempts` makes the
`while attempts < max` loop structural). `isConn n` is the `is_connected`
probe at attempt `n` (the "already reconnected through another mechanism"
check); `connOk n` whether attempt `n`'s `connectAsync` succeeds and leaves
`is_connected` true; a failed attempt's exception is caught and the loop
continues. Returns the successive values of `_reconnect_attempts` and its
final value (0 on every exit path, both in-band and via `finally:`). -/
def reconnect_go (isConn connOk : Nat → Bool) : Nat → Nat → List Nat × Nat
  | 0, _ => ([], 0)
  | fuel + 1, attempts =>
      let a := attempts + 1
      if isConn a then ([a], 0)
      else if connOk a then ([a], 0)
      else
        let (tr, fin) := reconnect_go isConn connOk fuel a
        (a :: tr, fin)

/-- One full run of `_reconnect` from a zero attempt counter. -/
def reconnect_loop (maxA : Nat) (isConn connOk : Nat → Bool) : List Nat × Nat :=
  reconnect_go isConn connOk maxA 0

/-! ## The ticker-id registry is append-only -/

/-- The ticker-id side of resolving a list of specs: each `create_contract`
call returns the ticker id of its spec's canonical key via `ticker_id`
(contracts.py:316-317); this folds those resolutions in order. -/
def resolve_keys (r : Registry) : List String → List Int × Registry
  | [] => ([], r)
  | k :: ks =>
      let (tid, r₁) := ticker_id r k
      let (tids, r₂) := resolve_keys r₁ ks
      (tid :: tids, r₂)

/-- The registry's mutating operations (the public entry points that touch the
`ContractManager` state). -/
inductive RegOp where
  | resolveKey (s : String)
  | create (resp : Option (List ContractDetails)) (today : Int)
      (t : ContractTuple) (legs : Option (List ComboLeg))
  | contFut (resp1 resp2 respFut : Option (List ContractDetails)) (today : Int)
      (symbol exchange output : String)
  | comboLeg (c : Contract) (action : String) (legRatio : Int) (exchange : Option String)

/-- The registry after one operation. -/
def regApply (r : Registry) : RegOp → Registry
  | .resolveKey s => (ticker_id r s).2
  | .create resp today t legs => (create_contract resp today t legs r).2.2
  | .contFut r1 r2 rf today sym exch out =>
      (create_continuous_futures_contract r1 r2 rf today sym exch out r).2
  | .comboLeg c a q e => (create_combo_leg c a q e r).2.2

/-- The registry after a sequence of operations. -/
def regRun (r : Registry) : List RegOp → Registry
  | [] => r
  | op :: ops => regRun (regApply r op) ops

/-- `r'`'s ticker-id registry is `r`'s with entries appended (nothing removed,
nothing rewritten in place). -/
def TidExt (r r' : Registry) : Prop := ∃ l, r'.tickerIds = r.tickerIds ++ l

theorem tidExt_refl (r : Registry) : TidExt r r := ⟨[], by simp⟩

theorem tidExt_trans {a b c : Registry} (h₁ : TidExt a b) (h₂ : TidExt b c) : TidExt a c := by
  obtain ⟨l₁, e₁⟩ := h₁
  obtain ⟨l₂, e₂⟩ := h₂
  exact ⟨l₁ ++ l₂, by simp [e₂, e₁]⟩

theorem tidExt_of_eq {r r' : Registry} (h : r'.tickerIds = r.tickerIds) : TidExt r r' :=
  ⟨[], by simp [h]⟩

theorem find?_append_some {α : Type} {q : α → Bool} {l e : List α} {x : α}
    (h : l.find? q = some x) : (l ++ e).find? q = some x := by
  rw [List.find?_append, h]; rfl

theorem ticker_id_tidExt (r : Registry) (s : String) : TidExt r (ticker_id r s).2 := by
  unfold ticker_id
  rcases h : r.tickerIds.find? (fun p => p.2 == s) with _ | p <;> simp only [h]
  · exact ⟨_, rfl⟩
  · exact tidExt_refl r

theorem ticker_idC_tidExt (r : Registry) (c : Contract) : TidExt r (ticker_idC r c).2 :=
  ticker_id_tidExt r _

theorem ticker_id_lookupCount (r : Registry) (s : String) :
    (ticker_id r s).2.lookupCount = r.lookupCount := by
  unfold ticker_id
  rcases h : r.tickerIds.find? (fun p => p.2 == s) with _ | p <;> simp only [h]

theorem ticker_id_contractDetails (r : Registry) (s : String) :
    (ticker_id r s).2.contractDetails = r.contractDetails := by
  unfold ticker_id
  rcases h : r.tickerIds.find? (fun p => p.2 == s) with _ | p <;> simp only [h]

theorem ticker_id_tempContractDetails (r : Registry) (s : String) :
    (ticker_id r s).2.tempContractDetails = r.tempContractDetails := by
  unfold ticker_id
  rcases h : r.tickerIds.find? (fun p => p.2 == s) with _ | p <;> simp only [h]

/-- After resolving `s`, the registry holds an entry pairing the returned id
with `s`, and value-lookup finds exactly it. -/
theorem ticker_id_find_self (r : Registry) (s : String) :
    (ticker_id r s).2.tickerIds.find? (fun p => p.2 == s) =
      some ((ticker_id r s).1, s) := by
  unfold ticker_id
  rcases h : r.tickerIds.find? (fun p => p.2 == s) with _ | p <;> simp only [h]
  · rw [List.find?_append, h]
    simp
  · rcases p with ⟨p1, p2⟩
    have hp : (p2 == s) = true := by simpa using List.find?_some h
    simp [h, eq_of_beq hp]

/-- Once a key is registered, any later registry (one that merely appends)
resolves it to the same id without allocating: resolution is idempotent. -/
theorem ticker_id_stable {r r' : Registry} {s : String}
    (hext : TidExt (ticker_id r s).2 r') :
    ticker_id r' s = ((ticker_id r s).1, r') := by
  obtain ⟨l, hl⟩ := hext
  have hfind : r'.tickerIds.find? (fun p => p.2 == s) = some ((ticker_id r s).1, s) := by
    rw [hl]
    exact find?_append_some (ticker_id_find_self r s)
  conv_lhs => unfold ticker_id; rw [hfind]

/-- Joint monotonicity: the ticker-id registry only grows and the transport
counter is untouched. Holds for every internal step except the lookup issue
itself. -/
def RegMono (a b : Registry) : Prop :=
  TidExt a b ∧ b.lookupCount = a.lookupCount

theorem regMono_refl (r : Registry) : RegMono r r := ⟨tidExt_refl r, rfl⟩

theorem regMono_trans {a b c : Registry} (h₁ : RegMono a b) (h₂ : RegMono b c) :
    RegMono a c :=
  ⟨tidExt_trans h₁.1 h₂.1, by rw [h₂.2, h₁.2]⟩

theorem regMono_of_eq {a b : Registry} (h₁ : b.tickerIds = a.tickerIds)
    (h₂ : b.lookupCount = a.lookupCount) : RegMono a b :=
  ⟨tidExt_of_eq h₁, h₂⟩

theorem foldl_regMono {β : Type} (f : Registry → β → Registry)
    (hf : ∀ a x, RegMono a (f a x)) (l : List β) : ∀ a, RegMono a (l.foldl f a) := by
  induction l with
  | nil => intro a; exact regMono_refl a
  | cons x xs ih => intro a; exact regMono_trans (hf a x) (ih (f a x))

theorem ticker_id_regMono (r : Registry) (s : String) : RegMono r (ticker_id r s).2 :=
  ⟨ticker_id_tidExt r s, ticker_id_lookupCount r s⟩

theorem ticker_idC_regMono (r : Registry) (c : Contract) : RegMono r (ticker_idC r c).2 :=
  ticker_id_regMono r _

theorem contract_detailsC_reg (r : Registry) (c : Contract) :
    (contract_detailsC r c).2 = (ticker_idC r c).2 := by
  unfold contract_detailsC
  rcases h : ticker_idC r c with ⟨tid, r₁⟩
  simp [h]

theorem get_con_id_reg (r : Registry) (c : Contract) :
    (get_con_id r c).2 = (ticker_idC r c).2 := by
  unfold get_con_id
  rcases h : contract_detailsC r c with ⟨d, r₁⟩
  rw [← contract_detailsC_reg r c, h]

theorem get_expirations_reg (today : Int) (r : Registry) (c : Contract) (e : Int) :
    (get_expirations today r c e).2 = (ticker_idC r c).2 := by
  unfold get_expirations
  rcases h : ticker_idC r c with ⟨tid, r₁⟩
  simp only [h]
  split
  · rfl
  · split
    · rfl
    · split
      · rfl
      · rfl

theorem is_multi_regMono (r : Registry) (c : Contract) :
    RegMono r (is_multi_contract r c).2 := by
  unfold is_multi_contract
  split
  · exact regMono_refl r
  · split
    · exact regMono_refl r
    · have hm := ticker_idC_regMono r c
      rcases h : ticker_idC r c with ⟨tid, r₁⟩
      rw [h] at hm
      simp only [h]
      split <;> exact hm

theorem process_details_finish_regMono (tid : Int) (d0 : ContractDetails)
    (ds : List ContractDetails) (month : String) (summary : Summary) (r : Registry) :
    RegMono r (process_details_finish tid d0 ds month summary r) := by
  simp only [process_details_finish]
  refine regMono_trans ?h1 (foldl_regMono _ ?s2 _ _)
  case s2 =>
    intro a x
    dsimp only
    have hm := ticker_id_regMono a (contract_to_stringC x)
    rcases h : ticker_id a (contract_to_stringC x) with ⟨ctid, a₁⟩
    rw [h] at hm
    simp only [h]
    split <;> exact regMono_trans hm (regMono_of_eq rfl rfl)
  refine regMono_trans ?h0 (foldl_regMono _ ?s1 _ _)
  case s1 =>
    intro a x
    dsimp only
    split
    · exact regMono_of_eq rfl rfl
    · exact regMono_refl a
  exact regMono_of_eq rfl rfl

theorem process_regMono (today tid : Int) (ds : List ContractDetails) (r : Registry) :
    RegMono r (process_contract_details today tid ds r) := by
  unfold process_contract_details
  rcases ds with _ | ⟨d0, rest⟩
  · exact regMono_refl r
  · dsimp only
    split
    · split
      · exact regMono_refl r
      · rename_i stored hf
        split
        · rename_i r₁ heq
          have h2 := get_expirations_reg today r stored 0
          rw [heq] at h2
          dsimp only at h2
          rw [h2]
          exact ticker_idC_regMono r stored
        · rename_i exps r₁ heq
          have h2 := get_expirations_reg today r stored 0
          rw [heq] at h2
          dsimp only at h2
          have hr₁ : RegMono r r₁ := by
            rw [h2]
            exact ticker_idC_regMono r stored
          split
          · exact regMono_trans hr₁ (process_details_finish_regMono ..)
          · split
            · exact regMono_trans hr₁ (process_details_finish_regMono ..)
            · exact hr₁
    · exact process_details_finish_regMono ..

/-- `request_contract_details` grows the ticker-id registry only by appends
and issues exactly one transport lookup. -/
theorem request_effects (resp : Option (List ContractDetails)) (today : Int)
    (c : Contract) (r : Registry) :
    TidExt r (request_contract_details resp today c r)
      ∧ (request_contract_details resp today c r).lookupCount = r.lookupCount + 1 := by
  unfold request_contract_details
  have hm := ticker_idC_regMono r c
  rcases h : ticker_idC r c with ⟨tid, r₁⟩
  rw [h] at hm
  dsimp only at hm
  simp only [h]
  rcases resp with _ | ds
  · exact ⟨tidExt_trans hm.1 (tidExt_of_eq rfl), by simp [hm.2]⟩
  · rcases ds with _ | ⟨d, ds'⟩
    · exact ⟨tidExt_trans hm.1 (tidExt_of_eq rfl), by simp [hm.2]⟩
    · have hp := process_regMono today tid (d :: ds') { r₁ with lookupCount := r₁.lookupCount + 1 }
      exact ⟨tidExt_trans hm.1 (tidExt_trans (tidExt_of_eq rfl) hp.1),
             by rw [hp.2]; simp [hm.2]⟩

/-- The ticker id returned by `create_contract` is the one `ticker_id`
resolves for the spec's canonical key (contracts.py:316-317). -/
theorem create_contract_tid (resp : Option (List ContractDetails)) (today : Int)
    (t : ContractTuple) (legs : Option (List ComboLeg)) (r : Registry) :
    (create_contract resp today t legs r).2.1 = (ticker_id r (contract_to_string t)).1 := by
  unfold create_contract
  rcases h : ticker_id r (contract_to_string t) with ⟨tid, rA⟩
  simp only [h]
  rcases legs with _ | l
  · dsimp only
  · rfl

/-- `create_contract` extends the ticker-id registry of the state obtained by
resolving its key, and adds exactly one transport lookup when the spec is not
a combo (none for a combo). -/
theorem create_contract_effects (resp : Option (List ContractDetails)) (today : Int)
    (t : ContractTuple) (legs : Option (List ComboLeg)) (r : Registry) :
    TidExt (ticker_id r (contract_to_string t)).2 (create_contract resp today t legs r).2.2
    ∧ (legs = none →
        (create_contract resp today t legs r).2.2.lookupCount = r.lookupCount + 1)
    ∧ (∀ l, legs = some l →
        (create_contract resp today t legs r).2.2.lookupCount = r.lookupCount) := by
  unfold create_contract
  have hA := ticker_id_lookupCount r (contract_to_string t)
  rcases h : ticker_id r (contract_to_string t) with ⟨tid, rA⟩
  rw [h] at hA
  dsimp only at hA
  simp only [h]
  rcases legs with _ | l
  · dsimp only
    set c : Contract := build_contract t none with hc
    set r₂ : Registry := { rA with contracts := assocSet rA.contracts tid c } with hr₂
    have hreq := request_effects resp today c r₂
    have hmulti := is_multi_regMono (request_contract_details resp today c r₂) c
    rcases h2 : is_multi_contract (request_contract_details resp today c r₂) c with ⟨b, r₄⟩
    rw [h2] at hmulti
    dsimp only at hmulti
    simp only [h2]
    refine ⟨?_, ?_, ?_⟩
    · exact tidExt_trans (tidExt_of_eq rfl) (tidExt_trans hreq.1 hmulti.1)
    · intro _
      rw [hmulti.2, hreq.2]
      rw [show r₂.lookupCount = rA.lookupCount from rfl, hA]
    · intro l hl
      exact absurd hl (by simp)
  · refine ⟨tidExt_of_eq rfl, fun h => by simp at h, fun _ _ => hA⟩

/-- Full-operation form: `create_contract` only appends to the ticker-id
registry. -/
theorem create_contract_tidExt (resp : Option (List ContractDetails)) (today : Int)
    (t : ContractTuple) (legs : Option (List ComboLeg)) (r : Registry) :
    TidExt r (create_contract resp today t legs r).2.2 :=
  tidExt_trans (ticker_id_tidExt r (contract_to_string t))
    (create_contract_effects resp today t legs r).1

theorem create_futures_contract_tidExt (resp : Option (List ContractDetails)) (today : Int)
    (symbol currency expiry exchange multiplier : String) (r : Registry) :
    TidExt r (create_futures_contract resp today symbol currency expiry exchange multiplier r).2.2 := by
  unfold create_futures_contract
  split <;> exact create_contract_tidExt ..

theorem contfut_poll_tidExt (c : Contract) (fuel : Nat) (r : Registry) :
    TidExt r (contfut_poll c fuel r).2 := by
  induction fuel generalizing r with
  | zero =>
    have h2 := contract_detailsC_reg r c
    rcases h : contract_detailsC r c with ⟨d, r₁⟩
    rw [h] at h2
    dsimp only at h2
    show TidExt r (contfut_poll c 0 r).2
    rw [show contfut_poll c 0 r = (d, r₁) from h, h2]
    exact ticker_idC_tidExt r c
  | succ n ih =>
    show TidExt r (contfut_poll c (n + 1) r).2
    unfold contfut_poll
    have h2 := contract_detailsC_reg r c
    rcases h : contract_detailsC r c with ⟨d, r₁⟩
    rw [h] at h2
    dsimp only at h2
    have hr₁ : TidExt r r₁ := by
      rw [h2]
      exact ticker_idC_tidExt r c
    simp only [h]
    split
    · exact hr₁
    · exact tidExt_trans hr₁ (ih r₁)

theorem contfut_attempt_tidExt (resp : Option (List ContractDetails)) (today : Int)
    (symbol exchange : String) (r : Registry) :
    TidExt r (contfut_attempt resp today symbol exchange r).2 := by
  unfold contfut_attempt
  rcases h : create_contract resp today ⟨symbol, "CONTFUT", exchange, "", "", 0, "", none⟩ none r
    with ⟨c, tid, r₁⟩
  have hcc := create_contract_tidExt resp today ⟨symbol, "CONTFUT", exchange, "", "", 0, "", none⟩ none r
  rw [h] at hcc
  dsimp only at hcc
  simp only [h]
  exact tidExt_trans hcc (contfut_poll_tidExt ..)

theorem contfut_finish_tidExt (respFut : Option (List ContractDetails)) (today : Int)
    (symbol exchange output : String) (d : DetailRecord) (r : Registry) :
    TidExt r (contfut_finish respFut today symbol exchange output d r).2 := by
  unfold contfut_finish
  dsimp only
  split
  · exact tidExt_of_eq rfl
  · dsimp only
    exact tidExt_trans (tidExt_of_eq rfl)
      (create_futures_contract_tidExt respFut today symbol d.summary.currency
        d.contractMonth exchange d.summary.multiplier _)

theorem create_continuous_futures_contract_tidExt
    (resp1 resp2 respFut : Option (List ContractDetails)) (today : Int)
    (symbol exchange output : String) (r : Registry) :
    TidExt r (create_continuous_futures_contract resp1 resp2 respFut today symbol exchange output r).2 := by
  unfold create_continuous_futures_contract
  dsimp only
  split
  · split
    · dsimp only
      exact tidExt_trans (contfut_attempt_tidExt resp1 today symbol exchange r)
        (contfut_attempt_tidExt resp2 today symbol exchange _)
    · dsimp only
      exact tidExt_trans (contfut_attempt_tidExt resp1 today symbol exchange r)
        (tidExt_trans (contfut_attempt_tidExt resp2 today symbol exchange _)
          (contfut_finish_tidExt respFut today symbol exchange output _ _))
  · dsimp only
    exact tidExt_trans (contfut_attempt_tidExt resp1 today symbol exchange r)
      (contfut_finish_tidExt respFut today symbol exchange output _ _)

theorem combo_leg_go_tidExt (c : Contract) (fuel : Nat) (conId : Int) (loops : Nat)
    (r : Registry) : TidExt r (combo_leg_go c fuel conId loops r).2.2 := by
  induction fuel generalizing conId loops r with
  | zero => exact tidExt_refl r
  | succ n ih =>
    unfold combo_leg_go
    split
    · have hge := get_con_id_reg r c
      rcases hg : get_con_id r c with ⟨ci, r₁⟩
      rw [hg] at hge
      dsimp only at hge
      simp only [hg]
      refine tidExt_trans ?_ (ih ..)
      rw [hge]
      exact ticker_idC_tidExt r c
    · exact tidExt_refl r

theorem create_combo_leg_tidExt (c : Contract) (action : String) (legRatio : Int)
    (exchange : Option String) (r : Registry) :
    TidExt r (create_combo_leg c action legRatio exchange r).2.2 := by
  unfold create_combo_leg
  have hge := combo_leg_go_tidExt c 100 0 0 r
  rcases hg : combo_leg_go c 100 0 0 r with ⟨conId, loops, r₁⟩
  rw [hg] at hge
  dsimp only at hge
  simp only [hg]
  exact hge

/-- Every registry operation only appends to the ticker-id registry. -/
theorem regApply_tidExt (r : Registry) (op : RegOp) : TidExt r (regApply r op) := by
  cases op with
  | resolveKey s => exact ticker_id_tidExt r s
  | create resp today t legs => exact create_contract_tidExt ..
  | contFut r1 r2 rf today sym exch out => exact create_continuous_futures_contract_tidExt ..
  | comboLeg c a q e => exact create_combo_leg_tidExt ..

theorem regRun_tidExt (ops : List RegOp) : ∀ r, TidExt r (regRun r ops) := by
  induction ops with
  | nil => intro r; exact tidExt_refl r
  | cons op ops ih => intro r; exact tidExt_trans (regApply_tidExt r op) (ih (regApply r op))

/-- An existing ticker-id entry survives any extension (never removed). -/
theorem tidExt_mem {r r' : Registry} (h : TidExt r r') {p : Int × String}
    (hp : p ∈ r.tickerIds) : p ∈ r'.tickerIds := by
  obtain ⟨l, hl⟩ := h
  rw [hl]
  exact List.mem_append_left l hp

/-- An id's binding survives any extension (never reassigned: lookup by id
keeps returning the key it was assigned). -/
theorem tidExt_lookup {r r' : Registry} (h : TidExt r r') {tid : Int} {s : String}
    (hs : assocFind? r.tickerIds tid = some s) : assocFind? r'.tickerIds tid = some s := by
  obtain ⟨l, hl⟩ := h
  unfold assocFind? at hs ⊢
  rw [hl]
  rcases hf : r.tickerIds.find? (fun p => p.1 == tid) with _ | x
  · rw [hf] at hs
    simp at hs
  · rw [find?_append_some hf, ← hf]
    exact hs

theorem assocFind?_eq_none {κ α : Type} [BEq κ] [LawfulBEq κ] {l : List (κ × α)} {k : κ}
    (h : ∀ p ∈ l, p.1 ≠ k) : assocFind? l k = none := by
  unfold assocFind?
  rw [List.find?_eq_none.mpr]
  · rfl
  · intro x hx
    simp [h x hx]

theorem assocFind?_of_mem_nodup {κ α : Type} [BEq κ] [LawfulBEq κ]
    {l : List (κ × α)} {k : κ} {v : α}
    (hnd : (l.map Prod.fst).Nodup) (hm : (k, v) ∈ l) : assocFind? l k = some v := by
  induction l with
  | nil => cases hm
  | cons p rest ih =>
    rcases p with ⟨k', v'⟩
    rw [List.map_cons] at hnd
    obtain ⟨h1, h2⟩ := List.nodup_cons.mp hnd
    rcases List.mem_cons.mp hm with heq | hm'
    · cases heq
      simp [assocFind?, List.find?]
    · have hk : (k' == k) = false := by
        apply beq_eq_false_iff_ne.mpr
        intro he
        subst he
        exact h1 (List.mem_map.mpr ⟨(k', v), hm', rfl⟩)
      have hrec := ih h2 hm'
      unfold assocFind? at hrec ⊢
      rw [List.find?_cons]
      simp only [hk, cond_false]
      exact hrec

theorem assocFind?_erase_self {κ α : Type} [BEq κ] [LawfulBEq κ]
    {l : List (κ × α)} {k : κ}
    (hnd : (l.map Prod.fst).Nodup) : assocFind? (assocErase l k) k = none := by
  induction l with
  | nil => rfl
  | cons p rest ih =>
    rcases p with ⟨k', v'⟩
    rw [List.map_cons] at hnd
    obtain ⟨h1, h2⟩ := List.nodup_cons.mp hnd
    unfold assocErase
    by_cases hk : (k' == k) = true
    · simp only [hk, if_true]
      have hke : k' = k := eq_of_beq hk
      subst hke
      apply assocFind?_eq_none
      intro q hq he
      exact h1 (List.mem_map.mpr ⟨q, hq, he⟩)
    · have hkf : (k' == k) = false := by simpa using hk
      simp only [hkf, Bool.false_eq_true, if_false]
      have hrec := ih h2
      unfold assocFind? at hrec ⊢
      rw [List.find?_cons]
      simp only [hkf, cond_false]
      exact hrec

/-- Starting from a registry whose value table misses all of `keys`, resolving
pairwise-distinct keys hands out exactly the next consecutive ids, in order. -/
theorem resolve_keys_fresh : ∀ (keys : List String) (r : Registry), keys.Nodup →
    (∀ k ∈ keys, r.tickerIds.find? (fun p => p.2 == k) = none) →
    (resolve_keys r keys).1 =
      (List.range' r.tickerIds.length keys.length).map Int.ofNat := by
  intro keys
  induction keys with
  | nil => intro r _ _; rfl
  | cons k ks ih =>
    intro r hnd habs
    have hfk : r.tickerIds.find? (fun p => p.2 == k) = none := habs k (by simp)
    unfold resolve_keys ticker_id
    simp only [hfk]
    have hrec := ih { r with tickerIds := r.tickerIds ++ [((r.tickerIds.length : Int), k)] }
      (List.nodup_cons.mp hnd).2 ?habs'
    case habs' =>
      intro k' hk'
      dsimp only
      rw [List.find?_append, habs k' (by simp [hk'])]
      have hne : (k == k') = false := by
        apply beq_eq_false_iff_ne.mpr
        intro he
        subst he
        exact (List.nodup_cons.mp hnd).1 hk'
      simp [List.find?, hne]
    rcases hres : resolve_keys
        { r with tickerIds := r.tickerIds ++ [((r.tickerIds.length : Int), k)] } ks
      with ⟨tids, r₂⟩
    rw [hres] at hrec
    dsimp only at hrec
    simp only [List.length_append, List.length_cons, List.length_nil] at hrec
    simp only [hres, List.length_cons]
    rw [List.range'_succ, List.map_cons, ← hrec]
    rfl

/-! ## Canonical-key normalization lemmas -/

theorem upperChar_ne_space {c : Char} (h : c ≠ ' ') : upperChar c ≠ ' ' := by
  unfold upperChar
  split <;> simp_all

theorem replaceSub_space_free : ∀ (s : List Char) (n : Nat), s.length ≤ n →
    ' ' ∉ replaceSub ' ' [] ['_'] n s := by
  intro s
  induction s with
  | nil =>
    intro n _ hmem
    cases n <;> simp [replaceSub] at hmem
  | cons c cs ih =>
    intro n hn
    match n, hn with
    | m + 1, hn =>
      by_cases hc : c = ' '
      · subst hc
        simp only [replaceSub, stripPre, if_pos rfl]
        intro hmem
        rcases List.mem_append.mp hmem with h1 | h2
        · simp at h1
        · exact ih m (by simpa using hn) h2
      · simp only [replaceSub, stripPre, if_neg hc]
        intro hmem
        rcases List.mem_cons.mp hmem with h1 | h2
        · exact hc h1.symm
        · exact ih m (by simpa using hn) h2

theorem pyUpper_replace_space_free (s : String) :
    ' ' ∉ (pyUpper (pyReplace " " "_" s)).data := by
  show ' ' ∉ (replaceSub ' ' [] ['_'] s.data.length s.data).map upperChar
  intro hmem
  rcases List.mem_map.mp hmem with ⟨c, hc, he⟩
  have hcs : c ≠ ' ' := fun h =>
    replaceSub_space_free s.data s.data.length (le_refl _) (h ▸ hc)
  exact upperChar_ne_space hcs he

theorem contract_to_string_space_free (t : ContractTuple) :
    ' ' ∉ (contract_to_string t).data := by
  unfold contract_to_string
  exact pyUpper_replace_space_free _

/-! ## Connection controller invariant -/

/-- The single-active-reconnect-task invariant: the number of running tasks is
one exactly when the tracked handle's task runs (zero otherwise), and the
handle is always in range. -/
def ConnInv (s : ConnState) : Prop :=
  s.tasks.count true = (if handleRunning s then 1 else 0)
  ∧ ∀ i, s.reconnectTask = some i → i < s.tasks.length

theorem connInv_init : ConnInv initConn :=
  ⟨rfl, fun i h => by simp [initConn] at h⟩

theorem spawn_handleRunning (s : ConnState) :
    handleRunning { s with tasks := s.tasks ++ [true],
                           reconnectTask := some s.tasks.length } = true := by
  unfold handleRunning
  simp [List.getD_eq_getElem?_getD, List.getElem?_append_right (le_refl s.tasks.length)]

theorem handle_disconnection_inv {s : ConnState} (h : ConnInv s) :
    ConnInv (handle_disconnection s) := by
  unfold handle_disconnection
  split
  · exact h
  · rename_i hrun
    have hfalse : handleRunning s = false := by
      revert hrun
      cases handleRunning s <;> simp
    have h0 : s.tasks.count true = 0 := by
      rw [h.1, hfalse]
      rfl
    constructor
    · rw [spawn_handleRunning s]
      show (s.tasks ++ [true]).count true = 1
      rw [List.count_append, h0]
      rfl
    · intro i hi
      simp only [Option.some.injEq] at hi
      subst hi
      simp

theorem monitor_tick_inv {s : ConnState} (h : ConnInv s) : ConnInv (monitor_tick s) := by
  unfold monitor_tick
  split
  · exact handle_disconnection_inv h
  · exact h

theorem connect_ok_inv {s : ConnState} (h : ConnInv s) : ConnInv (connect_ok s) := by
  unfold connect_ok
  dsimp only
  split <;> exact ⟨h.1, h.2⟩

theorem handleRunning_def (s : ConnState) :
    handleRunning s = (match s.reconnectTask with
                       | none => false
                       | some i => s.tasks.getD i false) := rfl

/-- Marking the handle's task done zeroes the running count. -/
theorem set_done_count {s : ConnState} (h : ConnInv s) {i : Nat}
    (hi : s.reconnectTask = some i) : (s.tasks.set i false).count true = 0 := by
  have hlen : i < s.tasks.length := h.2 i hi
  have hgetD : s.tasks.getD i false = s.tasks[i] := by
    rw [List.getD_eq_getElem?_getD, List.getElem?_eq_getElem hlen]
    rfl
  have hrun : handleRunning s = s.tasks[i] := by
    rw [handleRunning_def, hi, ← hgetD]
  rw [List.count_set _ _ _ _ hlen]
  rcases htask : s.tasks[i] with _ | _
  · have hz : s.tasks.count true = 0 := by
      rw [h.1, hrun, htask]
      rfl
    simp [hz, htask]
  · have ho : s.tasks.count true = 1 := by
      rw [h.1, hrun, htask]
      rfl
    simp [ho, htask]

theorem task_completes_inv {s : ConnState} (h : ConnInv s) (ok : Bool) :
    ConnInv (task_completes ok s) := by
  unfold task_completes
  rcases hrt : s.reconnectTask with _ | i
  · exact h
  · have hlen : i < s.tasks.length := h.2 i hrt
    have hget : (s.tasks.set i false).getD i false = false := by
      rw [List.getD_eq_getElem?_getD, List.getElem?_set]
      simp [hlen]
    constructor
    · simp only [handleRunning_def, hrt, hget]
      exact set_done_count h hrt
    · intro j hj
      have hj' : (some i : Option Nat) = some j := hj
      simp only [Option.some.injEq] at hj'
      subst hj'
      simpa using hlen

theorem disconnect_user_inv {s : ConnState} (h : ConnInv s) :
    ConnInv (disconnect_user s) := by
  unfold disconnect_user
  constructor
  · simp only [handleRunning_def]
    rcases hrt : s.reconnectTask with _ | i
    · have hz := h.1
      rw [handleRunning_def, hrt] at hz
      exact hz
    · exact set_done_count h hrt
  · intro j hj
    have hj' : (none : Option Nat) = some j := hj
    simp at hj'

theorem connStep_inv {s : ConnState} (h : ConnInv s) (op : ConnOp) :
    ConnInv (connStep s op) := by
  cases op with
  | connectOk => exact connect_ok_inv h
  | disconnectEvent =>
      have : ConnInv { s with connected := false } := ⟨h.1, h.2⟩
      exact handle_disconnection_inv this
  | monitorTick => exact monitor_tick_inv h
  | taskCompletes ok => exact task_completes_inv h ok
  | userDisconnect => exact disconnect_user_inv h

theorem connRun_inv (ops : List ConnOp) : ConnInv (connRun initConn ops) := by
  suffices h : ∀ s, ConnInv s → ConnInv (connRun s ops) from h initConn connInv_init
  induction ops with
  | nil => intro s hs; exact hs
  | cons op ops ih => intro s hs; exact ih (connStep s op) (connStep_inv hs op)

theorem runningCount_le_one {s : ConnState} (h : ConnInv s) : runningCount s ≤ 1 := by
  unfold runningCount
  rw [h.1]
  split <;> simp

theorem handleRunning_count_one {s : ConnState} (h : ConnInv s)
    (hr : handleRunning s = true) : runningCount s = 1 := by
  unfold runningCount
  rw [h.1, hr]
  rfl

theorem handle_disconnection_noop {s : ConnState} (hr : handleRunning s = true) :
    handle_disconnection s = s := by
  unfold handle_disconnection
  simp [hr]

theorem monitor_tick_noop_running {s : ConnState} (hr : handleRunning s = true) :
    monitor_tick s = s := by
  unfold monitor_tick
  simp [hr]

/-- While the monitor poll is alive, the session is down and no reconnect task
runs, the next poll tick spawns a fresh reconnect task. -/
theorem monitor_tick_spawns {s : ConnState} (hm : s.monitorRunning = true)
    (hc : s.connected = false) (hr : handleRunning s = false) :
    (monitor_tick s).tasks.length = s.tasks.length + 1
      ∧ handleRunning (monitor_tick s) = true := by
  unfold monitor_tick handle_disconnection
  simp only [hm, hc, hr]
  refine ⟨by simp, ?_⟩
  simp only [Bool.false_eq_true, not_false_eq_true, and_self, if_true, if_false]
  exact spawn_handleRunning s

/-- An always-failing transport makes the reconnect loop count straight
through `attempts+1, …, attempts+fuel` and leave the counter at 0. -/
theorem reconnect_go_fail (fuel : Nat) : ∀ a,
    reconnect_go (fun _ => false) (fun _ => false) fuel a =
      (List.range' (a + 1) fuel, 0) := by
  induction fuel with
  | zero => intro a; rfl
  | succ n ih =>
    intro a
    simp [reconnect_go, ih (a + 1), List.range'_succ]

/-! ## Concrete instances used by the claim theorems -/

/-- The plain-stock tuple `("AAPL", "STK", "SMART", "USD", "", 0.0, "")`. -/
def stockT : ContractTuple := ⟨"AAPL", "STK", "SMART", "USD", "", 0, "", none⟩

/-- A plain stock `Contract` as `create_stock_contract` would build it. -/
def aaplC : Contract :=
  { symbol := "AAPL", secType := "STK", exchange := "SMART", currency := "USD" }

/-- A resolved continuous-futures contract as the transport could return it. -/
def esContFutC : Contract :=
  { symbol := "ES", secType := "CONTFUT", exchange := "GLOBEX", currency := "USD",
    conId := 12345 }

/-- A one-element detail response for the `ES` continuous future. -/
def contFutResp : List ContractDetails := [{ contract := esContFutC, contractMonth := "202512" }]

/-! ## Combo-leg loop lemmas -/

/-- Reading the contract id is idempotent: a second read returns the same id
and leaves the registry untouched (only the first read can allocate). -/
theorem get_con_id_stable (r : Registry) (c : Contract) :
    get_con_id (get_con_id r c).2 c = get_con_id r c := by
  have hreg := get_con_id_reg r c
  have hst : ticker_idC (ticker_idC r c).2 c = ((ticker_idC r c).1, (ticker_idC r c).2) :=
    ticker_id_stable (r := r) (s := contract_to_stringC c) (tidExt_refl _)
  rw [hreg]
  unfold get_con_id contract_detailsC
  rcases h : ticker_idC r c with ⟨tid, r₁⟩
  rw [h] at hst
  dsimp only at hst
  simp only [h, hst]

theorem combo_leg_go_le (c : Contract) : ∀ (fuel : Nat) (conId : Int) (loops : Nat)
    (r : Registry), (combo_leg_go c fuel conId loops r).2.1 ≤ loops + fuel := by
  intro fuel
  induction fuel with
  | zero => intro conId loops r; simp [combo_leg_go]
  | succ n ih =>
    intro conId loops r
    unfold combo_leg_go
    split
    · rcases hg : get_con_id r c with ⟨ci, r₁⟩
      simp only [hg]
      calc (combo_leg_go c n ci (loops + 1) r₁).2.1 ≤ (loops + 1) + n := ih ci (loops + 1) r₁
        _ ≤ loops + (n + 1) := by omega
    · simp

theorem combo_leg_go_stuck_post (c : Contract) (r : Registry)
    (hz : (get_con_id r c).1 = 0) : ∀ (fuel loops : Nat),
    combo_leg_go c fuel 0 loops (get_con_id r c).2 =
      (0, loops + fuel, (get_con_id r c).2) := by
  intro fuel
  induction fuel with
  | zero => intro loops; simp [combo_leg_go]
  | succ n ih =>
    intro loops
    unfold combo_leg_go
    rw [if_pos rfl]
    have h0 : get_con_id (get_con_id r c).2 c = (0, (get_con_id r c).2) := by
      rw [get_con_id_stable r c]
      exact Prod.ext hz rfl
    simp only [h0]
    rw [ih (loops + 1)]
    have harith : loops + 1 + n = loops + (n + 1) := by omega
    rw [harith]

/-- A leg whose contract id never resolves consumes the whole 100-poll budget
and comes back with `conId = 0`. -/
theorem combo_leg_go_stuck (c : Contract) (r : Registry)
    (hz : (get_con_id r c).1 = 0) :
    combo_leg_go c 100 0 0 r = (0, 100, (get_con_id r c).2) := by
  have hstep : ∀ n loops : Nat,
      combo_leg_go c (n + 1) 0 loops r =
        combo_leg_go c n (get_con_id r c).1 (loops + 1) (get_con_id r c).2 := by
    intro n loops
    conv_lhs => unfold combo_leg_go
    rw [if_pos rfl]
  show combo_leg_go c (99 + 1) 0 0 r = _
  rw [hstep 99 0, hz]
  exact combo_leg_go_stuck_post c r hz 99 1

/-! ## Claim theorems -/

/-- C1 (counterexample): the claim "id 0 is never returned for a real spec,
and resolving N distinct keys returns exactly {1..N}" fails on the code: a
stock whose symbol is the sentinel string `"SYMBOL"` has canonical key
`"SYMBOL"`, so resolving it from a fresh registry returns the sentinel id 0 —
not 1 — because `ticker_id` matches the seeded sentinel entry by value. -/
theorem ticker_id_sentinel_collision :
    contract_to_string ⟨"SYMBOL", "STK", "SMART", "USD", "", 0, "", none⟩ = "SYMBOL"
    ∧ (resolve_keys initRegistry
        [contract_to_string ⟨"SYMBOL", "STK", "SMART", "USD", "", 0, "", none⟩]).1 = [0]
    ∧ (resolve_keys initRegistry
        [contract_to_string ⟨"SYMBOL", "STK", "SMART", "USD", "", 0, "", none⟩]).1 ≠ [1] := by
  refine ⟨by decide, by decide, by decide⟩

/-- C1 (amended): from a fresh registry, resolving N pairwise-distinct
canonical keys, none of which equals the sentinel string `"SYMBOL"`, returns
exactly the ticker ids 1..N in first-seen order with no gaps; id 0 is held by
the sentinel entry; and no later registry operation (spec resolution, detail
processing, continuous-future placeholder eviction, combo-leg polling) ever
removes a ticker-id entry or rebinds an allocated id to a different key. -/
theorem ticker_id_dense_append_only :
    (∀ keys : List String, keys.Nodup → "SYMBOL" ∉ keys →
        (resolve_keys initRegistry keys).1 = (List.range' 1 keys.length).map Int.ofNat)
    ∧ ticker_symbol initRegistry 0 = "SYMBOL"
    ∧ (∀ (r : Registry) (ops : List RegOp) (p : Int × String),
        p ∈ r.tickerIds → p ∈ (regRun r ops).tickerIds)
    ∧ (∀ (r : Registry) (ops : List RegOp) (tid : Int) (s : String),
        assocFind? r.tickerIds tid = some s →
        assocFind? (regRun r ops).tickerIds tid = some s) := by
  refine ⟨?_, rfl, ?_, ?_⟩
  · intro keys hnd hs
    have h := resolve_keys_fresh keys initRegistry hnd ?_
    · exact h
    · intro k hk
      have hne : ("SYMBOL" == k) = false :=
        beq_eq_false_iff_ne.mpr (fun he => hs (he ▸ hk))
      simp [initRegistry, List.find?, hne]
  · intro r ops p hp
    exact tidExt_mem (regRun_tidExt ops r) hp
  · intro r ops tid s hlook
    exact tidExt_lookup (regRun_tidExt ops r) hlook

/-- C1 witness: three distinct non-sentinel keys get ids 1, 2, 3, and the
sentinel binding survives a run of registry operations. -/
theorem ticker_id_dense_append_only_witness :
    (resolve_keys initRegistry ["AAPL", "ESZ2025_FUT", "EURUSD_CASH"]).1 = [1, 2, 3]
    ∧ ((0 : Int), "SYMBOL") ∈ (regRun initRegistry
        [.create (some []) 0 stockT none, .comboLeg aaplC "BUY" 1 none]).tickerIds := by
  constructor
  · have h := ticker_id_dense_append_only.1 ["AAPL", "ESZ2025_FUT", "EURUSD_CASH"]
      (by decide) (by decide)
    rw [h]
    rfl
  · exact ticker_id_dense_append_only.2.2.1 initRegistry
      [.create (some []) 0 stockT none, .comboLeg aaplC "BUY" 1 none]
      ((0 : Int), "SYMBOL") (by decide)

/-- C2 (counterexample): the claim "across two resolve calls with equal specs
exactly one detail-lookup is issued" fails on the code: `create_contract`
requests details unconditionally on every non-combo call (contracts.py:343-345
has no already-resolved check), so two identical stock resolutions issue two
transport lookups — though they do return the same ticker id. -/
theorem create_contract_relookup_counterexample :
    (create_contract (some []) 0 stockT none initRegistry).2.1 = 1
    ∧ (create_contract (some []) 0 stockT none
        (create_contract (some []) 0 stockT none initRegistry).2.2).2.1 = 1
    ∧ (create_contract (some []) 0 stockT none
        (create_contract (some []) 0 stockT none initRegistry).2.2).2.2.lookupCount = 2
    ∧ (create_contract (some []) 0 stockT none
        (create_contract (some []) 0 stockT none initRegistry).2.2).2.2.lookupCount ≠ 1 := by
  refine ⟨by decide, by decide, by decide, by decide⟩

/-- C2 (amended): `create_contract` is idempotent on ticker ids — two calls
with structurally-equal specs return the same TickerId — but lookups are not
deduplicated: every non-combo call issues one transport lookup, so the two
calls issue exactly two. -/
theorem create_contract_idempotent_id_lookup_per_call :
    ∀ (resp1 resp2 : Option (List ContractDetails)) (today1 today2 : Int)
      (t : ContractTuple) (r : Registry),
      (create_contract resp2 today2 t none
          (create_contract resp1 today1 t none r).2.2).2.1
        = (create_contract resp1 today1 t none r).2.1
      ∧ (create_contract resp2 today2 t none
          (create_contract resp1 today1 t none r).2.2).2.2.lookupCount
        = r.lookupCount + 2 := by
  intro resp1 resp2 today1 today2 t r
  have h1tid := create_contract_tid resp1 today1 t none r
  have h1ext := (create_contract_effects resp1 today1 t none r).1
  have h1cnt := (create_contract_effects resp1 today1 t none r).2.1 rfl
  have hst := ticker_id_stable (r := r) (s := contract_to_string t) h1ext
  constructor
  · rw [create_contract_tid resp2 today2 t none
        (create_contract resp1 today1 t none r).2.2, hst, h1tid]
  · have h2cnt := (create_contract_effects resp2 today2 t none
      (create_contract resp1 today1 t none r).2.2).2.1 rfl
    rw [h2cnt, h1cnt]

/-- C3 (counterexample): the claim "keys are collision-free across all
supported security types" fails on the code: the cash pairs EUR/USD and
EURU/SD have different discriminating fields (symbol and quote currency both
discriminate a cash pair) yet the same canonical key, because the key simply
concatenates symbol and currency. -/
theorem canonical_key_collision_cash :
    contract_to_string ⟨"EUR", "CASH", "IDEALPRO", "USD", "", 0, "", none⟩ = "EURUSD_CASH"
    ∧ contract_to_string ⟨"EURU", "CASH", "IDEALPRO", "SD", "", 0, "", none⟩ = "EURUSD_CASH"
    ∧ ("EUR", "USD") ≠ ("EURU", "SD") := by
  refine ⟨by decide, by decide, by decide⟩

/-- C3 (amended): the canonical key function is deterministic; for equities it
ignores exchange and currency entirely; keys never contain spaces and
lowercase input is uppercased (e.g. symbol `"brk b"` gives key `"BRK_B"`).
Collision-freedom does not hold (see the counterexample). -/
theorem canonical_key_deterministic_normalized :
    (∀ t₁ t₂ : ContractTuple, t₁ = t₂ → contract_to_string t₁ = contract_to_string t₂)
    ∧ (∀ (sym expiry right : String) (strike : ℚ) (mult : Option String)
        (e₁ c₁ e₂ c₂ : String),
        contract_to_string ⟨sym, "STK", e₁, c₁, expiry, strike, right, mult⟩ =
        contract_to_string ⟨sym, "STK", e₂, c₂, expiry, strike, right, mult⟩)
    ∧ (∀ t : ContractTuple, ' ' ∉ (contract_to_string t).data)
    ∧ contract_to_string ⟨"brk b", "STK", "SMART", "USD", "", 0, "", none⟩ = "BRK_B" := by
  refine ⟨fun t₁ t₂ h => by rw [h], ?_, contract_to_string_space_free, by decide⟩
  intro sym expiry right strike mult e₁ c₁ e₂ c₂
  rfl

/-- C3 witness: the deterministic/equity-invariance parts at concrete specs. -/
theorem canonical_key_deterministic_normalized_witness :
    contract_to_string stockT = contract_to_string stockT
    ∧ contract_to_string ⟨"AAPL", "STK", "NYSE", "EUR", "", 0, "", none⟩ =
        contract_to_string ⟨"AAPL", "STK", "SMART", "USD", "", 0, "", none⟩
    ∧ ' ' ∉ (contract_to_string ⟨"brk b", "STK", "SMART", "USD", "", 0, "", none⟩).data := by
  exact ⟨canonical_key_deterministic_normalized.1 stockT stockT rfl,
    canonical_key_deterministic_normalized.2.1 "AAPL" "" "" 0 none "NYSE" "EUR" "SMART" "USD",
    canonical_key_deterministic_normalized.2.2.1 _⟩

/-- C4: the canonical-key encoder yields the spec's scenario outputs — the
December future `ES 20251219` encodes as `ESZ2025_FUT`, the option
`AAPL 20251219 C 200.0` as `AAPL20251219C00200000_OPT` (5-digit zero-padded
integer strike plus 3-digit fraction), the cash pair `EUR/USD` as
`EURUSD_CASH` — and the month table maps 1..12 to `F G H J K M N Q U V X Z`. -/
theorem canonical_key_scenarios :
    contract_to_string ⟨"ES", "FUT", "GLOBEX", "USD", "20251219", 0, "", none⟩ = "ESZ2025_FUT"
    ∧ contract_to_string ⟨"AAPL", "OPT", "SMART", "USD", "20251219", 200, "C", none⟩ =
        "AAPL20251219C00200000_OPT"
    ∧ contract_to_string ⟨"EUR", "CASH", "IDEALPRO", "USD", "", 0, "", none⟩ = "EURUSD_CASH"
    ∧ (List.range' 1 12).map month_codes =
        ['F', 'G', 'H', 'J', 'K', 'M', 'N', 'Q', 'U', 'V', 'X', 'Z'].map some := by
  refine ⟨by decide, by decide, by decide, by decide⟩

/-- C5 (counterexample): the claim "after exhaustion no further automatic
attempt is scheduled until the caller explicitly reconnects" fails on the
code: after the reconnect task completes with the session still down, the
periodic liveness poll (`_monitor_connection`, which keeps running) sees a
done task and a dead connection and spawns a fresh reconnect task — the
fourth event below is a timer tick, not a caller action. -/
theorem reconnect_monitor_respawns_after_exhaustion :
    handleRunning (connRun initConn [.connectOk, .disconnectEvent, .taskCompletes false]) = false
    ∧ (connRun initConn [.connectOk, .disconnectEvent, .taskCompletes false]).reconnectAttempts = 0
    ∧ (connRun initConn [.connectOk, .disconnectEvent, .taskCompletes false]).connected = false
    ∧ (connRun initConn [.connectOk, .disconnectEvent, .taskCompletes false]).tasks.length = 1
    ∧ handleRunning (connRun initConn
        [.connectOk, .disconnectEvent, .taskCompletes false, .monitorTick]) = true
    ∧ (connRun initConn
        [.connectOk, .disconnectEvent, .taskCompletes false, .monitorTick]).tasks.length = 2 := by
  refine ⟨by decide, by decide, by decide, by decide, by decide, by decide⟩

/-- C5 (amended): with a transport whose connect always fails, one run of the
reconnect loop makes exactly K attempts — the counter takes each value 1..K
and is 0 on exit — and the loop itself terminates without scheduling anything;
but while the liveness poll is alive and the session stays down, its next tick
spawns a fresh reconnect task, so automatic attempts resume without an
explicit caller reconnect. -/
theorem reconnect_loop_exact_attempts_monitor_respawns :
    (∀ K : Nat, reconnect_loop K (fun _ => false) (fun _ => false) = (List.range' 1 K, 0))
    ∧ (∀ s : ConnState, s.monitorRunning = true → s.connected = false →
        handleRunning s = false →
        (monitor_tick s).tasks.length = s.tasks.length + 1
        ∧ handleRunning (monitor_tick s) = true) := by
  exact ⟨fun K => reconnect_go_fail K 0, fun s hm hc hr => monitor_tick_spawns hm hc hr⟩

/-- C5 witness: K = 3 gives the trace [1, 2, 3] with final counter 0, and the
poll tick after exhaustion spawns a new task in the concrete run. -/
theorem reconnect_loop_exact_attempts_monitor_respawns_witness :
    reconnect_loop 3 (fun _ => false) (fun _ => false) = ([1, 2, 3], 0)
    ∧ (monitor_tick (connRun initConn
        [.connectOk, .disconnectEvent, .taskCompletes false])).tasks.length
      = (connRun initConn
        [.connectOk, .disconnectEvent, .taskCompletes false]).tasks.length + 1 := by
  constructor
  · rw [reconnect_loop_exact_attempts_monitor_respawns.1 3]
    rfl
  · exact (reconnect_loop_exact_attempts_monitor_respawns.2
      (connRun initConn [.connectOk, .disconnectEvent, .taskCompletes false])
      (by decide) (by decide) (by decide)).1

/-- C6: `contract_details` is total on integer ticker ids and never raises —
it returns the cached record when one is stored, and otherwise (any id with no
entry in either detail cache, freshly allocated or never allocated at all) the
fixed placeholder default whose `conId` is 0 and whose `downloaded` flag is
`False`. -/
theorem contract_details_total_default :
    ∀ (r : Registry) (tid : Int),
      (∀ d, assocFind? r.contractDetails tid = some d → contract_details r tid = d)
      ∧ (assocFind? r.contractDetails tid = none →
          assocFind? r.tempContractDetails tid = none →
            contract_details r tid = default_contract_details
            ∧ (contract_details r tid).conId = 0
            ∧ (contract_details r tid).downloaded = false) := by
  intro r tid
  constructor
  · intro d hd
    unfold contract_details
    rw [hd]
  · intro h1 h2
    unfold contract_details
    rw [h1, h2]
    exact ⟨rfl, rfl, rfl⟩

/-- C6 witness: a freshly-allocated id (1, right after resolving "AAPL" with
no transport response yet) and a never-allocated id (-5) both get the
placeholder. -/
theorem contract_details_total_default_witness :
    contract_details (ticker_id initRegistry "AAPL").2 1 = default_contract_details
    ∧ (contract_details (ticker_id initRegistry "AAPL").2 1).conId = 0
    ∧ (contract_details (ticker_id initRegistry "AAPL").2 1).downloaded = false
    ∧ contract_details initRegistry (-5) = default_contract_details := by
  have h1 := (contract_details_total_default (ticker_id initRegistry "AAPL").2 1).2
    (by decide) (by decide)
  have h2 := (contract_details_total_default initRegistry (-5)).2 (by decide) (by decide)
  exact ⟨h1.1, h1.2.1, h1.2.2, h2.1⟩

/-- C7: in every reachable controller state at most one reconnect task is
running; while one is running, a disconnect notification only records the
transport drop (it spawns nothing) and the liveness poll is a no-op; and
firing the disconnect notification twice in quick succession leaves exactly
one active reconnect task and no new task object. -/
theorem single_reconnect_task :
    ∀ ops : List ConnOp,
      runningCount (connRun initConn ops) ≤ 1
      ∧ (handleRunning (connRun initConn ops) = true →
          connStep (connRun initConn ops) .disconnectEvent
              = { connRun initConn ops with connected := false }
          ∧ monitor_tick (connRun initConn ops) = connRun initConn ops
          ∧ runningCount (connRun (connRun initConn ops)
              [.disconnectEvent, .disconnectEvent]) = 1
          ∧ (connRun (connRun initConn ops)
              [.disconnectEvent, .disconnectEvent]).tasks.length
              = (connRun initConn ops).tasks.length) := by
  intro ops
  have hinv := connRun_inv ops
  refine ⟨runningCount_le_one hinv, fun hr => ?_⟩
  have hstep : connStep (connRun initConn ops) .disconnectEvent
      = { connRun initConn ops with connected := false } := by
    show disconnect_event _ = _
    unfold disconnect_event
    exact handle_disconnection_noop hr
  have hstep2 : connStep { connRun initConn ops with connected := false } .disconnectEvent
      = { connRun initConn ops with connected := false } := by
    show disconnect_event _ = _
    unfold disconnect_event
    exact handle_disconnection_noop hr
  refine ⟨hstep, monitor_tick_noop_running hr, ?_, ?_⟩
  · show runningCount (connStep (connStep (connRun initConn ops) .disconnectEvent)
      .disconnectEvent) = 1
    rw [hstep, hstep2]
    exact handleRunning_count_one hinv hr
  · show (connStep (connStep (connRun initConn ops) .disconnectEvent)
      .disconnectEvent).tasks.length = _
    rw [hstep, hstep2]

/-- C7 witness: with one reconnect task running after a real disconnect, the
double notification leaves exactly one active task. -/
theorem single_reconnect_task_witness :
    runningCount (connRun initConn [.connectOk, .disconnectEvent]) ≤ 1
    ∧ runningCount (connRun (connRun initConn [.connectOk, .disconnectEvent])
        [.disconnectEvent, .disconnectEvent]) = 1 := by
  have h := single_reconnect_task [.connectOk, .disconnectEvent]
  exact ⟨h.1, (h.2 (by decide)).2.2.1⟩

/-- C8: continuous-future resolution retries the whole resolution exactly once
when the bounded poll yields `conId = 0`; if the retry also fails it raises
the `ValueError` naming the symbol/exchange combination; and on success the
transient placeholder's entries are evicted from both the contract pool and
the detail cache — its ticker-id binding is untouched, so the id is never
reused — before the spec is re-resolved as a dated future with the discovered
contract month, currency and multiplier. -/
theorem contfut_retry_eviction_error :
    ∀ (resp1 resp2 respFut : Option (List ContractDetails)) (today : Int)
      (symbol exchange : String) (r : Registry),
      ((contfut_attempt resp1 today symbol exchange r).1.conId = 0 →
        (contfut_attempt resp2 today symbol exchange
            (contfut_attempt resp1 today symbol exchange r).2).1.conId = 0 →
        (create_continuous_futures_contract resp1 resp2 respFut today symbol exchange
            "contract" r).1
          = .error ("Can't find a valid Contract using this combination ("
              ++ symbol ++ "/" ++ exchange ++ ")"))
      ∧ ((contfut_attempt resp1 today symbol exchange r).1.conId ≠ 0 →
          (let d := (contfut_attempt resp1 today symbol exchange r).1
           let r₁ := (contfut_attempt resp1 today symbol exchange r).2
           let rEv : Registry :=
             { r₁ with contracts := assocErase r₁.contracts d.tickerId,
                       contractDetails := assocErase r₁.contractDetails d.tickerId }
           rEv.tickerIds = r₁.tickerIds
           ∧ ((r₁.contracts.map Prod.fst).Nodup →
               assocFind? rEv.contracts d.tickerId = none)
           ∧ ((r₁.contractDetails.map Prod.fst).Nodup →
               assocFind? rEv.contractDetails d.tickerId = none)
           ∧ create_continuous_futures_contract resp1 resp2 respFut today symbol exchange
               "contract" r
             = (let out := create_futures_contract respFut today symbol d.summary.currency
                  d.contractMonth exchange d.summary.multiplier rEv
                (.ok (.contract out.1 out.2.1), out.2.2)))) := by
  intro resp1 resp2 respFut today symbol exchange r
  constructor
  · intro h1 h2
    unfold create_continuous_futures_contract
    rw [if_pos h1, if_pos h2]
  · intro h1
    refine ⟨rfl, fun hnd => assocFind?_erase_self hnd,
      fun hnd => assocFind?_erase_self hnd, ?_⟩
    unfold create_continuous_futures_contract
    rw [if_neg h1]
    unfold contfut_finish
    rw [if_neg (by decide : ¬("contract" : String) = "tuple")]

/-- C8 witness: with empty detail responses both attempts fail and the
distinguished error names ES/GLOBEX; with a resolving response the evicted
placeholder's detail entry is gone. -/
theorem contfut_retry_eviction_error_witness :
    (create_continuous_futures_contract (some []) (some []) (some []) 0 "ES" "GLOBEX"
        "contract" initRegistry).1
      = .error "Can't find a valid Contract using this combination (ES/GLOBEX)"
    ∧ assocFind?
        (assocErase (contfut_attempt (some contFutResp) 0 "ES" "GLOBEX" initRegistry).2.contractDetails
          (contfut_attempt (some contFutResp) 0 "ES" "GLOBEX" initRegistry).1.tickerId)
        (contfut_attempt (some contFutResp) 0 "ES" "GLOBEX" initRegistry).1.tickerId = none := by
  constructor
  · exact (contfut_retry_eviction_error (some []) (some []) (some []) 0 "ES" "GLOBEX"
      initRegistry).1 (by decide) (by decide)
  · exact ((contfut_retry_eviction_error (some contFutResp) none (some []) 0 "ES" "GLOBEX"
      initRegistry).2 (by decide)).2.2.1 (by decide)

/-- C9 (counterexample): the claim "an exhausted combo-leg retry budget is
surfaced to the caller as an explicit error" fails on the code:
`create_combo_leg` raises nothing — after its 100 polls it assigns whatever
`con_id` it last read (contracts.py:751), so an unresolved leg is returned
silently with `conId = 0`. -/
theorem combo_leg_silent_default :
    (create_combo_leg aaplC "BUY" 1 none initRegistry).1.conId = 0
    ∧ (create_combo_leg aaplC "BUY" 1 none initRegistry).2.1 = 100 := by
  refine ⟨by decide, by decide⟩

/-- C9 (amended): building a combo leg polls the cache for the leg's contract
id at most 100 times at a fixed 0.05 s interval; when the id never resolves
the full budget is consumed (100 polls, 100 × 0.05 s = 5 s of wall time) and
the leg is returned with its `conId` silently defaulted to 0 — no error is
surfaced. -/
theorem combo_leg_bounded_polls :
    ∀ (c : Contract) (action : String) (q : Int) (ex : Option String) (r : Registry),
      (create_combo_leg c action q ex r).2.1 ≤ 100
      ∧ ((get_con_id r c).1 = 0 →
          (create_combo_leg c action q ex r).2.1 = 100
          ∧ ((create_combo_leg c action q ex r).2.1 : ℚ) * (1 / 20) = 5
          ∧ (create_combo_leg c action q ex r).1.conId = 0) := by
  intro c action q ex r
  unfold create_combo_leg
  rcases hg : combo_leg_go c 100 0 0 r with ⟨conId, loops, r₁⟩
  have hle := combo_leg_go_le c 100 0 0 r
  rw [hg] at hle
  dsimp only at hle
  simp only [hg]
  refine ⟨by simpa using hle, fun hz => ?_⟩
  have hstuck := combo_leg_go_stuck c r hz
  rw [hg] at hstuck
  have hcon : conId = 0 := congrArg Prod.fst hstuck
  have hloops : loops = 100 := congrArg (fun p => p.2.1) hstuck
  subst hcon hloops
  refine ⟨rfl, by norm_num, rfl⟩

/-- C9 witness: an unresolved stock leg exhausts the budget. -/
theorem combo_leg_bounded_polls_witness :
    (create_combo_leg aaplC "SELL" 2 none initRegistry).2.1 = 100
    ∧ ((create_combo_leg aaplC "SELL" 2 none initRegistry).2.1 : ℚ) * (1 / 20) = 5
    ∧ (create_combo_leg aaplC "SELL" 2 none initRegistry).1.conId = 0 := by
  exact (combo_leg_bounded_polls aaplC "SELL" 2 none initRegistry).2 (by decide)

/-- C10: `ticker_symbol` never raises — for an id absent from the ticker-id
registry it returns the empty string (the `KeyError` handler), and for any
allocated id it returns exactly the canonical key bound to that id. -/
theorem ticker_symbol_total :
    ∀ (r : Registry) (tid : Int),
      (assocFind? r.tickerIds tid = none → ticker_symbol r tid = "")
      ∧ (∀ s, (r.tickerIds.map Prod.fst).Nodup → (tid, s) ∈ r.tickerIds →
          ticker_symbol r tid = s) := by
  intro r tid
  constructor
  · intro h
    unfold ticker_symbol
    rw [h]
    rfl
  · intro s hnd hm
    unfold ticker_symbol
    rw [assocFind?_of_mem_nodup hnd hm]
    rfl

/-- C10 witness: after allocating "AAPL" at id 1, id 1 resolves to "AAPL" and
the never-allocated id 99 resolves to the empty string. -/
theorem ticker_symbol_total_witness :
    ticker_symbol (ticker_id initRegistry "AAPL").2 1 = "AAPL"
    ∧ ticker_symbol (ticker_id initRegistry "AAPL").2 99 = "" := by
  constructor
  · exact (ticker_symbol_total (ticker_id initRegistry "AAPL").2 1).2 "AAPL"
      (by decide) (by decide)
  · exact (ticker_symbol_total (ticker_id initRegistry "AAPL").2 99).1 (by decide)

end EzIB
